import Mathlib

set_option maxRecDepth 100000

/-!
Verification of the bpe-match pre-tokenization scanner (src/lib.rs).

The scanner splits Unicode text into contiguous spans by an ordered ladder of
seven greedy, all-or-nothing rules plus a one-codepoint fallback.

Embedding conventions:
* Input text is a `List Char` (the caller guarantees valid Unicode, so the
  byte-level `&str` is in bijection with its codepoint sequence).
* Positions and span offsets are codepoint indices.  The Rust code uses byte
  offsets, but every advance is by whole codepoints (`len_utf8`), so byte
  offsets and codepoint indices are order-isomorphic; span structure
  (non-emptiness, contiguity, coverage) is identical in both views.
* Each `try_match_*` rule is a pure function `List Char → Nat → Option Nat`
  returning the end position on success and `none` on decline (a decline in
  the Rust code leaves the cursor untouched, which the `Option` interface
  models by simply not producing an end position).
* `is_letter` / `is_number` delegate in the Rust code to the oniguruma regex
  engine (`\p{L}` / `\p{N}` single-codepoint match).  The engine's category
  tables are not part of this repository; they are modelled below from the
  spec as explicit Unicode General Category interval tables.
* `is_whitespace` models Rust's `char::is_whitespace`, the Unicode
  `White_Space` property (25 codepoints).
-/

-- Unicode General Category interval tables (inclusive codepoint ranges),
-- modelled from the spec: group L = Lu/Ll/Lt/Lm/Lo, group N = Nd/Nl/No.
def categoryLTable : List (Nat × Nat) := [
  (65, 90), (97, 122), (170, 170), (181, 181), (186, 186), (192, 214), (216, 246), (248, 705),
  (710, 721), (736, 740), (748, 748), (750, 750), (880, 884), (886, 887), (890, 893), (895, 895),
  (902, 902), (904, 906), (908, 908), (910, 929), (931, 1013), (1015, 1153), (1162, 1327), (1329, 1366),
  (1369, 1369), (1376, 1416), (1488, 1514), (1519, 1522), (1568, 1610), (1646, 1647), (1649, 1747), (1749, 1749),
  (1765, 1766), (1774, 1775), (1786, 1788), (1791, 1791), (1808, 1808), (1810, 1839), (1869, 1957), (1969, 1969),
  (1994, 2026), (2036, 2037), (2042, 2042), (2048, 2069), (2074, 2074), (2084, 2084), (2088, 2088), (2112, 2136),
  (2144, 2154), (2160, 2183), (2185, 2190), (2208, 2249), (2308, 2361), (2365, 2365), (2384, 2384), (2392, 2401),
  (2417, 2432), (2437, 2444), (2447, 2448), (2451, 2472), (2474, 2480), (2482, 2482), (2486, 2489), (2493, 2493),
  (2510, 2510), (2524, 2525), (2527, 2529), (2544, 2545), (2556, 2556), (2565, 2570), (2575, 2576), (2579, 2600),
  (2602, 2608), (2610, 2611), (2613, 2614), (2616, 2617), (2649, 2652), (2654, 2654), (2674, 2676), (2693, 2701),
  (2703, 2705), (2707, 2728), (2730, 2736), (2738, 2739), (2741, 2745), (2749, 2749), (2768, 2768), (2784, 2785),
  (2809, 2809), (2821, 2828), (2831, 2832), (2835, 2856), (2858, 2864), (2866, 2867), (2869, 2873), (2877, 2877),
  (2908, 2909), (2911, 2913), (2929, 2929), (2947, 2947), (2949, 2954), (2958, 2960), (2962, 2965), (2969, 2970),
  (2972, 2972), (2974, 2975), (2979, 2980), (2984, 2986), (2990, 3001), (3024, 3024), (3077, 3084), (3086, 3088),
  (3090, 3112), (3114, 3129), (3133, 3133), (3160, 3162), (3165, 3165), (3168, 3169), (3200, 3200), (3205, 3212),
  (3214, 3216), (3218, 3240), (3242, 3251), (3253, 3257), (3261, 3261), (3293, 3294), (3296, 3297), (3313, 3314),
  (3332, 3340), (3342, 3344), (3346, 3386), (3389, 3389), (3406, 3406), (3412, 3414), (3423, 3425), (3450, 3455),
  (3461, 3478), (3482, 3505), (3507, 3515), (3517, 3517), (3520, 3526), (3585, 3632), (3634, 3635), (3648, 3654),
  (3713, 3714), (3716, 3716), (3718, 3722), (3724, 3747), (3749, 3749), (3751, 3760), (3762, 3763), (3773, 3773),
  (3776, 3780), (3782, 3782), (3804, 3807), (3840, 3840), (3904, 3911), (3913, 3948), (3976, 3980), (4096, 4138),
  (4159, 4159), (4176, 4181), (4186, 4189), (4193, 4193), (4197, 4198), (4206, 4208), (4213, 4225), (4238, 4238),
  (4256, 4293), (4295, 4295), (4301, 4301), (4304, 4346), (4348, 4680), (4682, 4685), (4688, 4694), (4696, 4696),
  (4698, 4701), (4704, 4744), (4746, 4749), (4752, 4784), (4786, 4789), (4792, 4798), (4800, 4800), (4802, 4805),
  (4808, 4822), (4824, 4880), (4882, 4885), (4888, 4954), (4992, 5007), (5024, 5109), (5112, 5117), (5121, 5740),
  (5743, 5759), (5761, 5786), (5792, 5866), (5873, 5880), (5888, 5905), (5919, 5937), (5952, 5969), (5984, 5996),
  (5998, 6000), (6016, 6067), (6103, 6103), (6108, 6108), (6176, 6264), (6272, 6276), (6279, 6312), (6314, 6314),
  (6320, 6389), (6400, 6430), (6480, 6509), (6512, 6516), (6528, 6571), (6576, 6601), (6656, 6678), (6688, 6740),
  (6823, 6823), (6917, 6963), (6981, 6988), (7043, 7072), (7086, 7087), (7098, 7141), (7168, 7203), (7245, 7247),
  (7258, 7293), (7296, 7304), (7312, 7354), (7357, 7359), (7401, 7404), (7406, 7411), (7413, 7414), (7418, 7418),
  (7424, 7615), (7680, 7957), (7960, 7965), (7968, 8005), (8008, 8013), (8016, 8023), (8025, 8025), (8027, 8027),
  (8029, 8029), (8031, 8061), (8064, 8116), (8118, 8124), (8126, 8126), (8130, 8132), (8134, 8140), (8144, 8147),
  (8150, 8155), (8160, 8172), (8178, 8180), (8182, 8188), (8305, 8305), (8319, 8319), (8336, 8348), (8450, 8450),
  (8455, 8455), (8458, 8467), (8469, 8469), (8473, 8477), (8484, 8484), (8486, 8486), (8488, 8488), (8490, 8493),
  (8495, 8505), (8508, 8511), (8517, 8521), (8526, 8526), (8579, 8580), (11264, 11492), (11499, 11502), (11506, 11507),
  (11520, 11557), (11559, 11559), (11565, 11565), (11568, 11623), (11631, 11631), (11648, 11670), (11680, 11686), (11688, 11694),
  (11696, 11702), (11704, 11710), (11712, 11718), (11720, 11726), (11728, 11734), (11736, 11742), (11823, 11823), (12293, 12294),
  (12337, 12341), (12347, 12348), (12353, 12438), (12445, 12447), (12449, 12538), (12540, 12543), (12549, 12591), (12593, 12686),
  (12704, 12735), (12784, 12799), (13312, 19903), (19968, 42124), (42192, 42237), (42240, 42508), (42512, 42527), (42538, 42539),
  (42560, 42606), (42623, 42653), (42656, 42725), (42775, 42783), (42786, 42888), (42891, 42954), (42960, 42961), (42963, 42963),
  (42965, 42969), (42994, 43009), (43011, 43013), (43015, 43018), (43020, 43042), (43072, 43123), (43138, 43187), (43250, 43255),
  (43259, 43259), (43261, 43262), (43274, 43301), (43312, 43334), (43360, 43388), (43396, 43442), (43471, 43471), (43488, 43492),
  (43494, 43503), (43514, 43518), (43520, 43560), (43584, 43586), (43588, 43595), (43616, 43638), (43642, 43642), (43646, 43695),
  (43697, 43697), (43701, 43702), (43705, 43709), (43712, 43712), (43714, 43714), (43739, 43741), (43744, 43754), (43762, 43764),
  (43777, 43782), (43785, 43790), (43793, 43798), (43808, 43814), (43816, 43822), (43824, 43866), (43868, 43881), (43888, 44002),
  (44032, 55203), (55216, 55238), (55243, 55291), (63744, 64109), (64112, 64217), (64256, 64262), (64275, 64279), (64285, 64285),
  (64287, 64296), (64298, 64310), (64312, 64316), (64318, 64318), (64320, 64321), (64323, 64324), (64326, 64433), (64467, 64829),
  (64848, 64911), (64914, 64967), (65008, 65019), (65136, 65140), (65142, 65276), (65313, 65338), (65345, 65370), (65382, 65470),
  (65474, 65479), (65482, 65487), (65490, 65495), (65498, 65500), (65536, 65547), (65549, 65574), (65576, 65594), (65596, 65597),
  (65599, 65613), (65616, 65629), (65664, 65786), (66176, 66204), (66208, 66256), (66304, 66335), (66349, 66368), (66370, 66377),
  (66384, 66421), (66432, 66461), (66464, 66499), (66504, 66511), (66560, 66717), (66736, 66771), (66776, 66811), (66816, 66855),
  (66864, 66915), (66928, 66938), (66940, 66954), (66956, 66962), (66964, 66965), (66967, 66977), (66979, 66993), (66995, 67001),
  (67003, 67004), (67072, 67382), (67392, 67413), (67424, 67431), (67456, 67461), (67463, 67504), (67506, 67514), (67584, 67589),
  (67592, 67592), (67594, 67637), (67639, 67640), (67644, 67644), (67647, 67669), (67680, 67702), (67712, 67742), (67808, 67826),
  (67828, 67829), (67840, 67861), (67872, 67897), (67968, 68023), (68030, 68031), (68096, 68096), (68112, 68115), (68117, 68119),
  (68121, 68149), (68192, 68220), (68224, 68252), (68288, 68295), (68297, 68324), (68352, 68405), (68416, 68437), (68448, 68466),
  (68480, 68497), (68608, 68680), (68736, 68786), (68800, 68850), (68864, 68899), (69248, 69289), (69296, 69297), (69376, 69404),
  (69415, 69415), (69424, 69445), (69488, 69505), (69552, 69572), (69600, 69622), (69635, 69687), (69745, 69746), (69749, 69749),
  (69763, 69807), (69840, 69864), (69891, 69926), (69956, 69956), (69959, 69959), (69968, 70002), (70006, 70006), (70019, 70066),
  (70081, 70084), (70106, 70106), (70108, 70108), (70144, 70161), (70163, 70187), (70272, 70278), (70280, 70280), (70282, 70285),
  (70287, 70301), (70303, 70312), (70320, 70366), (70405, 70412), (70415, 70416), (70419, 70440), (70442, 70448), (70450, 70451),
  (70453, 70457), (70461, 70461), (70480, 70480), (70493, 70497), (70656, 70708), (70727, 70730), (70751, 70753), (70784, 70831),
  (70852, 70853), (70855, 70855), (71040, 71086), (71128, 71131), (71168, 71215), (71236, 71236), (71296, 71338), (71352, 71352),
  (71424, 71450), (71488, 71494), (71680, 71723), (71840, 71903), (71935, 71942), (71945, 71945), (71948, 71955), (71957, 71958),
  (71960, 71983), (71999, 71999), (72001, 72001), (72096, 72103), (72106, 72144), (72161, 72161), (72163, 72163), (72192, 72192),
  (72203, 72242), (72250, 72250), (72272, 72272), (72284, 72329), (72349, 72349), (72368, 72440), (72704, 72712), (72714, 72750),
  (72768, 72768), (72818, 72847), (72960, 72966), (72968, 72969), (72971, 73008), (73030, 73030), (73056, 73061), (73063, 73064),
  (73066, 73097), (73112, 73112), (73440, 73458), (73648, 73648), (73728, 74649), (74880, 75075), (77712, 77808), (77824, 78894),
  (82944, 83526), (92160, 92728), (92736, 92766), (92784, 92862), (92880, 92909), (92928, 92975), (92992, 92995), (93027, 93047),
  (93053, 93071), (93760, 93823), (93952, 94026), (94032, 94032), (94099, 94111), (94176, 94177), (94179, 94179), (94208, 100343),
  (100352, 101589), (101632, 101640), (110576, 110579), (110581, 110587), (110589, 110590), (110592, 110882), (110928, 110930), (110948, 110951),
  (110960, 111355), (113664, 113770), (113776, 113788), (113792, 113800), (113808, 113817), (119808, 119892), (119894, 119964), (119966, 119967),
  (119970, 119970), (119973, 119974), (119977, 119980), (119982, 119993), (119995, 119995), (119997, 120003), (120005, 120069), (120071, 120074),
  (120077, 120084), (120086, 120092), (120094, 120121), (120123, 120126), (120128, 120132), (120134, 120134), (120138, 120144), (120146, 120485),
  (120488, 120512), (120514, 120538), (120540, 120570), (120572, 120596), (120598, 120628), (120630, 120654), (120656, 120686), (120688, 120712),
  (120714, 120744), (120746, 120770), (120772, 120779), (122624, 122654), (123136, 123180), (123191, 123197), (123214, 123214), (123536, 123565),
  (123584, 123627), (124896, 124902), (124904, 124907), (124909, 124910), (124912, 124926), (124928, 125124), (125184, 125251), (125259, 125259),
  (126464, 126467), (126469, 126495), (126497, 126498), (126500, 126500), (126503, 126503), (126505, 126514), (126516, 126519), (126521, 126521),
  (126523, 126523), (126530, 126530), (126535, 126535), (126537, 126537), (126539, 126539), (126541, 126543), (126545, 126546), (126548, 126548),
  (126551, 126551), (126553, 126553), (126555, 126555), (126557, 126557), (126559, 126559), (126561, 126562), (126564, 126564), (126567, 126570),
  (126572, 126578), (126580, 126583), (126585, 126588), (126590, 126590), (126592, 126601), (126603, 126619), (126625, 126627), (126629, 126633),
  (126635, 126651), (131072, 173791), (173824, 177976), (177984, 178205), (178208, 183969), (183984, 191456), (194560, 195101), (196608, 201546)
]

def categoryNTable : List (Nat × Nat) := [
  (48, 57), (178, 179), (185, 185), (188, 190), (1632, 1641), (1776, 1785), (1984, 1993), (2406, 2415),
  (2534, 2543), (2548, 2553), (2662, 2671), (2790, 2799), (2918, 2927), (2930, 2935), (3046, 3058), (3174, 3183),
  (3192, 3198), (3302, 3311), (3416, 3422), (3430, 3448), (3558, 3567), (3664, 3673), (3792, 3801), (3872, 3891),
  (4160, 4169), (4240, 4249), (4969, 4988), (5870, 5872), (6112, 6121), (6128, 6137), (6160, 6169), (6470, 6479),
  (6608, 6618), (6784, 6793), (6800, 6809), (6992, 7001), (7088, 7097), (7232, 7241), (7248, 7257), (8304, 8304),
  (8308, 8313), (8320, 8329), (8528, 8578), (8581, 8585), (9312, 9371), (9450, 9471), (10102, 10131), (11517, 11517),
  (12295, 12295), (12321, 12329), (12344, 12346), (12690, 12693), (12832, 12841), (12872, 12879), (12881, 12895), (12928, 12937),
  (12977, 12991), (42528, 42537), (42726, 42735), (43056, 43061), (43216, 43225), (43264, 43273), (43472, 43481), (43504, 43513),
  (43600, 43609), (44016, 44025), (65296, 65305), (65799, 65843), (65856, 65912), (65930, 65931), (66273, 66299), (66336, 66339),
  (66369, 66369), (66378, 66378), (66513, 66517), (66720, 66729), (67672, 67679), (67705, 67711), (67751, 67759), (67835, 67839),
  (67862, 67867), (68028, 68029), (68032, 68047), (68050, 68095), (68160, 68168), (68221, 68222), (68253, 68255), (68331, 68335),
  (68440, 68447), (68472, 68479), (68521, 68527), (68858, 68863), (68912, 68921), (69216, 69246), (69405, 69414), (69457, 69460),
  (69573, 69579), (69714, 69743), (69872, 69881), (69942, 69951), (70096, 70105), (70113, 70132), (70384, 70393), (70736, 70745),
  (70864, 70873), (71248, 71257), (71360, 71369), (71472, 71483), (71904, 71922), (72016, 72025), (72784, 72812), (73040, 73049),
  (73120, 73129), (73664, 73684), (74752, 74862), (92768, 92777), (92864, 92873), (93008, 93017), (93019, 93025), (93824, 93846),
  (119520, 119539), (119648, 119672), (120782, 120831), (123200, 123209), (123632, 123641), (125127, 125135), (125264, 125273), (126065, 126123),
  (126125, 126127), (126129, 126132), (126209, 126253), (126255, 126269), (127232, 127244), (130032, 130041)
]

-- Unicode White_Space property codepoints (Rust char::is_whitespace).
def whiteSpaceTable : List (Nat × Nat) := [
  (9, 13), (32, 32), (133, 133), (160, 160), (5760, 5760), (8192, 8202),
  (8232, 8233), (8239, 8239), (8287, 8287), (12288, 12288)
]


def inRanges (t : List (Nat × Nat)) (n : Nat) : Bool :=
  t.any (fun r => decide (r.1 ≤ n) && decide (n ≤ r.2))

/-- The apostrophe character U+0027. -/
def squote : Char := Char.ofNat 39

/-- src/lib.rs 24-26: `is_newline` is true exactly for CR and LF. -/
def is_newline (c : Char) : Bool := c == '\r' || c == '\n'

/-- src/lib.rs 28-32: `is_letter` matches the single-codepoint regex `\p{L}`.
Modelled from the spec: the oniguruma `\p{L}` table (Unicode General Category
group L = Lu/Ll/Lt/Lm/Lo) is not part of this repository; it is represented
here by the explicit interval table `categoryLTable`. -/
def is_letter (c : Char) : Bool := inRanges categoryLTable c.toNat

/-- src/lib.rs 34-38: `is_number` matches the single-codepoint regex `\p{N}`.
Modelled from the spec: the oniguruma `\p{N}` table (Unicode General Category
group N = Nd/Nl/No) is not part of this repository; it is represented here by
the explicit interval table `categoryNTable`. -/
def is_number (c : Char) : Bool := inRanges categoryNTable c.toNat

/-- Models Rust `char::is_whitespace`: the Unicode `White_Space` property. -/
def is_whitespace (c : Char) : Bool := inRanges whiteSpaceTable c.toNat

/-- Models Rust `char::to_ascii_lowercase`. -/
def to_ascii_lowercase (c : Char) : Char :=
  if 65 ≤ c.toNat ∧ c.toNat ≤ 90 then Char.ofNat (c.toNat + 32) else c

/-- src/lib.rs 40-42: first character of the text at byte offset `pos`. -/
def peek_char_at (text : List Char) (pos : Nat) : Option Char := text[pos]?

/-- Length of the maximal prefix of `l` whose characters all satisfy `p`
(the `while let Some(c) ... if p c` scanning loops of the source). -/
def scan_while (p : Char → Bool) : List Char → Nat
  | [] => 0
  | c :: cs => if p c then scan_while p cs + 1 else 0

/-- Like `scan_while` but stops after at most `k` characters
(the `while count < 3` loop of src/lib.rs 161-172). -/
def scan_upto (p : Char → Bool) (k : Nat) (l : List Char) : Nat :=
  match k, l with
  | 0, _ => 0
  | _ + 1, [] => 0
  | k + 1, c :: cs => if p c then scan_upto p k cs + 1 else 0

/-- src/lib.rs 134: the class of rule 2's optional lead character — not a
letter, not a number, not a newline. -/
def optional_lead (c : Char) : Bool :=
  !is_letter c && !is_number c && !is_newline c

/-- src/lib.rs 196: the "other" class of rule 4 — neither whitespace nor
letter nor number. -/
def other_char (c : Char) : Bool :=
  !is_whitespace c && !is_letter c && !is_number c

/-- src/lib.rs 221 / 259: whitespace that is not a newline. -/
def ws_not_newline (c : Char) : Bool := is_whitespace c && !is_newline c

/-- src/lib.rs 111-113: Rust `str::eq_ignore_ascii_case` of the two-char
string against "ll"/"ve"/"re".  Byte-wise ASCII folding of a two-char UTF-8
string equals a two-byte ASCII literal iff both chars are ASCII and fold to
the corresponding letters; a non-ASCII char can never fold-match an ASCII
byte, so the char-wise formulation below is exact. -/
def is_double_suffix (c1 c2 : Char) : Bool :=
  (to_ascii_lowercase c1 == 'l' && to_ascii_lowercase c2 == 'l') ||
  (to_ascii_lowercase c1 == 'v' && to_ascii_lowercase c2 == 'e') ||
  (to_ascii_lowercase c1 == 'r' && to_ascii_lowercase c2 == 'e')

/-- src/lib.rs 118-121: `first_char.to_ascii_lowercase()` is s, d, m or t. -/
def is_single_suffix (c1 : Char) : Bool :=
  to_ascii_lowercase c1 == 's' || to_ascii_lowercase c1 == 'd' ||
  to_ascii_lowercase c1 == 'm' || to_ascii_lowercase c1 == 't'

/-- src/lib.rs 100-127, rule 1: apostrophe contractions.  The source first
checks the two-character suffixes ll/ve/re, then the one-character suffixes
s/d/m/t; when fewer than two characters follow only the one-character check
runs. -/
def try_match_apostrophe_contractions (text : List Char) (start_pos : Nat) :
    Option Nat :=
  if text[start_pos]? ≠ some squote then none
  else
    match text[start_pos + 1]?, text[start_pos + 2]? with
    | some c1, some c2 =>
      if is_double_suffix c1 c2 then some (start_pos + 3)
      else if is_single_suffix c1 then some (start_pos + 2)
      else none
    | some c1, none =>
      if is_single_suffix c1 then some (start_pos + 2) else none
    | none, _ => none

/-- src/lib.rs 129-155, rule 2: one optional non-letter, non-number,
non-newline character, then one or more letters; declines unless at least one
letter follows the (possibly admitted) lead position. -/
def try_match_optional_nonalpha_plus_letters (text : List Char)
    (start_pos : Nat) : Option Nat :=
  let pos :=
    match text[start_pos]? with
    | some c => if optional_lead c then start_pos + 1 else start_pos
    | none => start_pos
  let pos2 := pos + scan_while is_letter (text.drop pos)
  if pos < pos2 then some pos2 else none

/-- src/lib.rs 157-179, rule 3: one to three consecutive numbers. -/
def try_match_numbers_1_to_3 (text : List Char) (start_pos : Nat) :
    Option Nat :=
  let n := scan_upto is_number 3 (text.drop start_pos)
  if 0 < n then some (start_pos + n) else none

/-- src/lib.rs 181-215, rule 4: one optional literal space, then one or more
characters that are neither whitespace nor letters nor numbers, then any
immediately following newlines. -/
def try_match_space_plus_nonwhitespace_with_newlines (text : List Char)
    (start_pos : Nat) : Option Nat :=
  if text.length ≤ start_pos then none
  else
    let pos :=
      match text[start_pos]? with
      | some c => if c == ' ' then start_pos + 1 else start_pos
      | none => start_pos
    let pos2 := pos + scan_while other_char (text.drop pos)
    if pos < pos2 then
      some (pos2 + scan_while is_newline (text.drop pos2))
    else none

/-- src/lib.rs 217-242, rule 5: zero or more non-newline whitespace
characters, then one or more newlines; declines (full rollback) if no newline
follows the scanned whitespace. -/
def try_match_whitespace_before_newlines (text : List Char)
    (start_pos : Nat) : Option Nat :=
  let pos := start_pos + scan_while ws_not_newline (text.drop start_pos)
  let pos2 := pos + scan_while is_newline (text.drop pos)
  if pos < pos2 then some pos2 else none

/-- src/lib.rs 268-272: the boundary test of rule 6 — the character at `e` is
absent (end of text) or is whitespace. -/
def boundary_ok (text : List Char) (e : Nat) : Bool :=
  match text[e]? with
  | none => true
  | some c => is_whitespace c

/-- src/lib.rs 244-276, rule 6: requires a non-newline whitespace character at
the cursor; collects the candidate end positions `start_pos+1 .. start_pos+r`
over the maximal non-newline whitespace run of length `r`, and returns the
first (largest) candidate, scanning from the end, whose boundary character is
absent or whitespace.  (When `peek_char_at start_pos` is `none` the source
falls through to the scanning loop, collects no candidates, and returns
`None`; the `none` branch below is that same outcome.) -/
def try_match_whitespace_followed_by_whitespace_or_end (text : List Char)
    (start_pos : Nat) : Option Nat :=
  if text.length ≤ start_pos then none
  else
    match text[start_pos]? with
    | none => none
    | some c =>
      if !is_whitespace c || is_newline c then none
      else
        let r := scan_while ws_not_newline (text.drop start_pos)
        (List.range' (start_pos + 1) r).reverse.find? (boundary_ok text)

/-- src/lib.rs 278-295, rule 7: one or more whitespace characters. -/
def try_match_any_whitespace (text : List Char) (start_pos : Nat) :
    Option Nat :=
  let pos := start_pos + scan_while is_whitespace (text.drop start_pos)
  if start_pos < pos then some pos else none

/-- src/lib.rs 52-96: one call of `Iterator::next`.  Returns the emitted span
`(start, end)`; the caller's cursor becomes `end`.  The fallback consumes
exactly one codepoint: at an in-bounds position of valid Unicode text
`char_len_at` is the current codepoint's length, so `.max(1)` is the length
of one codepoint, i.e. one index in the codepoint view. -/
def next_token (text : List Char) (current_pos : Nat) :
    Option (Nat × Nat) :=
  if text.length ≤ current_pos then none
  else
    let m : Option Nat :=
      try_match_apostrophe_contractions text current_pos <|>
      try_match_optional_nonalpha_plus_letters text current_pos <|>
      try_match_numbers_1_to_3 text current_pos <|>
      try_match_space_plus_nonwhitespace_with_newlines text current_pos <|>
      try_match_whitespace_before_newlines text current_pos <|>
      try_match_whitespace_followed_by_whitespace_or_end text current_pos <|>
      try_match_any_whitespace text current_pos
    match m with
    | some e => some (current_pos, e)
    | none => some (current_pos, current_pos + 1)

/-- Driving the iterator to exhaustion (src/lib.rs 298-300 collects it).
`fuel` bounds the number of `next` calls; `find_matches` supplies fuel
`text.length`, which lemma `collect_tokens_fuel_sufficient` shows is enough
to reach exhaustion. -/
def collect_tokens (text : List Char) : Nat → Nat → List (Nat × Nat)
  | _, 0 => []
  | pos, fuel + 1 =>
    match next_token text pos with
    | some se => se :: collect_tokens text se.2 fuel
    | none => []

/-- src/lib.rs 298-300: `find_matches`, as the list of emitted spans. -/
def find_matches (text : List Char) : List (Nat × Nat) :=
  collect_tokens text 0 text.length

/-- The length of the maximal non-newline whitespace run starting at `p`
(what the scanning loops of rules 5 and 6 compute). -/
def ws_run (text : List Char) (p : Nat) : Nat :=
  scan_while ws_not_newline (text.drop p)

/-- The substring of `text` denoted by the span `(s, e)` (what
`&self.text[start_pos..end_pos]` yields, in the codepoint view). -/
def span_slice (text : List Char) (s e : Nat) : List Char :=
  (text.drop s).take (e - s)

/-- `span_chain a spans b`: the spans are consecutive, each non-empty, the
first starts at `a` and the last ends at `b` (for `[]`, `a = b`).  This is
exactly the partition shape: no gaps, no overlaps, union `[a, b)`. -/
def span_chain : Nat → List (Nat × Nat) → Nat → Prop
  | a, [], b => a = b
  | a, (s, e) :: rest, b => s = a ∧ a < e ∧ span_chain e rest b

/-!
Reference pattern model.  Modelled from the spec: the oracle is the pattern
`'(?i:[sdmt]|ll|ve|re)|[^\r\n\p{L}\p{N}]?+\p{L}+|\p{N}{1,3}| ?[^\s\p{L}\p{N}]++[\r\n]*|\s*[\r\n]|\s+(?!\S)|\s+`
evaluated by a backtracking engine as a global, non-overlapping,
leftmost-first scan: at each position the seven alternatives are tried in
order and the first that matches wins; `?+`/`++` are possessive, `?`/`*`/`+`
are greedy with backtracking, and `(?!\S)` is a negative lookahead.  The
engine itself is an external collaborator (test-only oracle), not part of
src/; per the spec the contraction suffix comparison uses ASCII-only case
folding.
-/

/-- Modelled from the spec: alternative 1, `'(?i:[sdmt]|ll|ve|re)` — inside
the group the single-letter alternatives come first. -/
def ref_alt1 (text : List Char) (p : Nat) : Option Nat :=
  if text[p]? ≠ some squote then none
  else
    match text[p + 1]? with
    | none => none
    | some c1 =>
      if is_single_suffix c1 then some (p + 2)
      else
        match text[p + 2]? with
        | none => none
        | some c2 => if is_double_suffix c1 c2 then some (p + 3) else none

/-- Modelled from the spec: alternative 2, `[^\r\n\p{L}\p{N}]?+\p{L}+` — the
optional class is possessive (once taken it is never given back), then one or
more letters. -/
def ref_alt2 (text : List Char) (p : Nat) : Option Nat :=
  let q :=
    match text[p]? with
    | some c =>
      if !is_newline c && !is_letter c && !is_number c then p + 1 else p
    | none => p
  let e := q + scan_while is_letter (text.drop q)
  if q < e then some e else none

/-- Modelled from the spec: alternative 3, `\p{N}{1,3}` — greedily one to
three numbers (nothing follows in the alternative, so greedy = maximal). -/
def ref_alt3 (text : List Char) (p : Nat) : Option Nat :=
  let n := scan_upto is_number 3 (text.drop p)
  if 0 < n then some (p + n) else none

/-- Modelled from the spec: the `[^\s\p{L}\p{N}]++[\r\n]*` tail of
alternative 4, attempted at position `q`. -/
def ref_alt4_tail (text : List Char) (q : Nat) : Option Nat :=
  let e := q + scan_while other_char (text.drop q)
  if q < e then some (e + scan_while is_newline (text.drop e)) else none

/-- Modelled from the spec: alternative 4, ` ?[^\s\p{L}\p{N}]++[\r\n]*` — the
leading ` ?` is greedy but backtrackable: the engine first tries consuming
the space and, if the possessive tail then fails, retries without it. -/
def ref_alt4 (text : List Char) (p : Nat) : Option Nat :=
  match text[p]? with
  | none => none
  | some c =>
    if c == ' ' then
      match ref_alt4_tail text (p + 1) with
      | some e => some e
      | none => ref_alt4_tail text p
    else ref_alt4_tail text p

/-- Modelled from the spec: alternative 5, `\s*[\r\n]` — greedy `\s*` with
backtracking means the match ends just after the last newline inside the
maximal whitespace run starting at `p`, and fails if that run contains no
newline. -/
def ref_alt5 (text : List Char) (p : Nat) : Option Nat :=
  let r := scan_while is_whitespace (text.drop p)
  ((List.range' p r).reverse.find? (fun i =>
      match text[i]? with
      | some c => is_newline c
      | none => false)).map (fun i => i + 1)

/-- Modelled from the spec: alternative 6, `\s+(?!\S)` — greedy `\s+` with
backtracking tries each candidate length from the maximal whitespace run
length down to 1, accepting the first whose following character is absent or
whitespace (the negative lookahead). -/
def ref_alt6 (text : List Char) (p : Nat) : Option Nat :=
  let r := scan_while is_whitespace (text.drop p)
  (List.range' (p + 1) r).reverse.find? (boundary_ok text)

/-- Modelled from the spec: alternative 7, `\s+` — a maximal nonempty
whitespace run. -/
def ref_alt7 (text : List Char) (p : Nat) : Option Nat :=
  let e := p + scan_while is_whitespace (text.drop p)
  if p < e then some e else none

/-- Modelled from the spec: one match attempt of the whole alternation at
position `p` — ordered choice over the seven alternatives. -/
def ref_match_at (text : List Char) (p : Nat) : Option Nat :=
  ref_alt1 text p <|> ref_alt2 text p <|> ref_alt3 text p <|>
  ref_alt4 text p <|> ref_alt5 text p <|> ref_alt6 text p <|>
  ref_alt7 text p

/-- Modelled from the spec: the global, non-overlapping, leftmost-first scan
(`find_iter`): at each position try the pattern; on a match emit it and
resume at its end, otherwise advance one position without emitting.  `fuel`
bounds the number of steps; every step advances the position by at least one,
so `text.length + 1` steps always reach the end. -/
def ref_tokens_from (text : List Char) : Nat → Nat → List (Nat × Nat)
  | _, 0 => []
  | pos, fuel + 1 =>
    if text.length ≤ pos then []
    else
      match ref_match_at text pos with
      | some e =>
        if pos < e then (pos, e) :: ref_tokens_from text e fuel
        else ref_tokens_from text (pos + 1) fuel
      | none => ref_tokens_from text (pos + 1) fuel

/-- Modelled from the spec: the full reference match sequence of a text. -/
def ref_tokens (text : List Char) : List (Nat × Nat) :=
  ref_tokens_from text 0 (text.length + 1)

example : ref_tokens [ 'h', 'e', 'l', 'l', 'o' ] = [(0, 5)] := by decide

example : ref_tokens [ '\n', ' ', '\n' ] = [(0, 3)] := by decide

example : find_matches [ '\n', ' ', '\n' ] = [(0, 1), (1, 3)] := by decide

example : find_matches [ 'h', 'e', 'l', 'l', 'o' ] = [(0, 5)] := by decide

example : find_matches [ 'd', 'o', 'n', squote, 't' ] = [(0, 3), (3, 5)] := by
  decide

example : find_matches [ '1', '2', '3', '4', '5', '6' ] = [(0, 3), (3, 6)] := by
  decide

example : find_matches [ 'f', 'o', 'o', '\n', '\n' ] = [(0, 3), (3, 5)] := by
  decide

example : find_matches [ 'a', ' ', ' ', 'b' ] = [(0, 1), (1, 2), (2, 4)] := by
  decide

example :
    find_matches [ 'I', squote, 'l', 'l', ' ', 'g', 'o' ] =
      [(0, 1), (1, 4), (4, 7)] := by decide

/-! Basic facts about the scanning helpers. -/

theorem scan_while_cons (p : Char → Bool) (c : Char) (cs : List Char) :
    scan_while p (c :: cs) = if p c then scan_while p cs + 1 else 0 := rfl

theorem scan_while_le_length (p : Char → Bool) (l : List Char) :
    scan_while p l ≤ l.length := by
  induction l with
  | nil => simp [scan_while]
  | cons c cs ih =>
    rw [scan_while_cons]
    split <;> simp <;> omega

theorem scan_while_sat (p : Char → Bool) (l : List Char) (i : Nat)
    (h : i < scan_while p l) : ∃ c, l[i]? = some c ∧ p c = true := by
  induction l generalizing i with
  | nil => simp [scan_while] at h
  | cons c cs ih =>
    rw [scan_while_cons] at h
    by_cases hc : p c
    · rw [if_pos hc] at h
      cases i with
      | zero => exact ⟨c, by simp, hc⟩
      | succ j =>
        obtain ⟨d, hd, hpd⟩ := ih j (by omega)
        exact ⟨d, by simpa using hd, hpd⟩
    · rw [if_neg hc] at h
      omega

theorem scan_while_stop (p : Char → Bool) (l : List Char) (c : Char)
    (h : l[scan_while p l]? = some c) : p c = false := by
  induction l with
  | nil => simp at h
  | cons d ds ih =>
    rw [scan_while_cons] at h
    by_cases hd : p d
    · rw [if_pos hd] at h
      exact ih (by simpa using h)
    · rw [if_neg hd] at h
      simp at h
      rw [← h]
      simpa using hd

theorem scan_while_pos_iff (p : Char → Bool) (l : List Char) :
    0 < scan_while p l ↔ ∃ c, l[0]? = some c ∧ p c = true := by
  cases l with
  | nil => simp [scan_while]
  | cons c cs =>
    rw [scan_while_cons]
    by_cases hc : p c
    · simp [hc]
    · simp [hc]

theorem scan_upto_eq_min (p : Char → Bool) (k : Nat) (l : List Char) :
    scan_upto p k l = min k (scan_while p l) := by
  induction k generalizing l with
  | zero => simp [scan_upto]
  | succ k ih =>
    cases l with
    | nil => simp [scan_upto, scan_while]
    | cons c cs =>
      rw [scan_while_cons]
      show (if p c then scan_upto p k cs + 1 else 0) = _
      by_cases hc : p c
      · rw [if_pos hc, if_pos hc, ih, Nat.succ_min_succ]
      · simp [hc]

theorem drop_getElem? (text : List Char) (pos i : Nat) :
    (text.drop pos)[i]? = text[pos + i]? := List.getElem?_drop text pos i

theorem getElem?_some_lt {text : List Char} {i : Nat} {c : Char}
    (h : text[i]? = some c) : i < text.length := (List.getElem?_eq_some.mp h).1

/-- End position of a scanning loop started at `pos` stays within bounds. -/
theorem scan_end_le (p : Char → Bool) (text : List Char) (pos : Nat)
    (h : pos ≤ text.length) :
    pos + scan_while p (text.drop pos) ≤ text.length := by
  have h2 := scan_while_le_length p (text.drop pos)
  rw [List.length_drop] at h2
  omega

/-- Every position strictly inside a scanned run satisfies the predicate. -/
theorem scan_sat_at (p : Char → Bool) (text : List Char) (pos i : Nat)
    (h1 : pos ≤ i) (h2 : i < pos + scan_while p (text.drop pos)) :
    ∃ c, text[i]? = some c ∧ p c = true := by
  obtain ⟨c, hc, hpc⟩ := scan_while_sat p (text.drop pos) (i - pos) (by omega)
  rw [drop_getElem?] at hc
  refine ⟨c, ?_, hpc⟩
  rw [show pos + (i - pos) = i by omega] at hc
  exact hc

/-- The character just past a scanned run (if any) fails the predicate. -/
theorem scan_stop_at (p : Char → Bool) (text : List Char) (pos : Nat)
    (c : Char) (h : text[pos + scan_while p (text.drop pos)]? = some c) :
    p c = false := by
  apply scan_while_stop p (text.drop pos)
  rw [drop_getElem?]
  exact h

/-- A scanned run is nonempty iff the character at `pos` satisfies the
predicate. -/
theorem scan_pos_iff_at (p : Char → Bool) (text : List Char) (pos : Nat) :
    0 < scan_while p (text.drop pos) ↔
      ∃ c, text[pos]? = some c ∧ p c = true := by
  rw [scan_while_pos_iff, drop_getElem?, Nat.add_zero]

/-! `find?` over a reversed `range'` returns the largest element of the range
satisfying the predicate (this is the shape of rule 6's backward scan and of
the reference pattern's backtracking). -/

theorem find_rev_range_eq_some (f : Nat → Bool) (a r x : Nat) :
    ((List.range' a r).reverse.find? f = some x) ↔
      (a ≤ x ∧ x < a + r ∧ f x = true ∧
        ∀ j, x < j → j < a + r → f j = false) := by
  induction r with
  | zero =>
    simp only [List.range', List.reverse_nil, List.find?_nil]
    constructor
    · intro h; cases h
    · intro ⟨_, h2, _, _⟩; omega
  | succ r ih =>
    rw [List.range'_concat, List.reverse_append]
    simp only [Nat.one_mul, List.reverse_cons, List.reverse_nil,
      List.nil_append, List.cons_append, List.find?_cons]
    by_cases hf : f (a + r)
    · rw [hf]
      constructor
      · intro h
        rw [Option.some_inj] at h
        subst h
        exact ⟨by omega, by omega, hf, by omega⟩
      · intro ⟨h1, h2, h3, h4⟩
        by_cases hx : x = a + r
        · rw [hx]
        · exact absurd hf (by rw [h4 (a + r) (by omega) (by omega)]; simp)
    · rw [Bool.not_eq_true] at hf
      rw [hf, ih]
      constructor
      · intro ⟨h1, h2, h3, h4⟩
        refine ⟨h1, by omega, h3, fun j hj1 hj2 => ?_⟩
        by_cases hj : j = a + r
        · rw [hj]; exact hf
        · exact h4 j hj1 (by omega)
      · intro ⟨h1, h2, h3, h4⟩
        by_cases hx : x = a + r
        · rw [hx] at h3; rw [h3] at hf; cases hf
        · exact ⟨h1, by omega, h3, fun j hj1 hj2 => h4 j hj1 (by omega)⟩

theorem find_rev_range_eq_none (f : Nat → Bool) (a r : Nat) :
    ((List.range' a r).reverse.find? f = none) ↔
      ∀ j, a ≤ j → j < a + r → f j = false := by
  induction r with
  | zero =>
    simp only [List.range', List.reverse_nil, List.find?_nil]
    constructor
    · intro _ j h1 h2; omega
    · intro _; trivial
  | succ r ih =>
    rw [List.range'_concat, List.reverse_append]
    simp only [Nat.one_mul, List.reverse_cons, List.reverse_nil,
      List.nil_append, List.cons_append, List.find?_cons]
    by_cases hf : f (a + r)
    · rw [hf]
      constructor
      · intro h; cases h
      · intro h
        rw [h (a + r) (by omega) (by omega)] at hf
        cases hf
    · rw [Bool.not_eq_true] at hf
      rw [hf, ih]
      constructor
      · intro h j hj1 hj2
        by_cases hj : j = a + r
        · rw [hj]; exact hf
        · exact h j hj1 (by omega)
      · intro h j hj1 hj2
        exact h j hj1 (by omega)

/-! Per-rule bounds: every successful rule returns an end position strictly
past the start and within the text. -/

theorem try1_bound {text : List Char} {p e : Nat}
    (h : try_match_apostrophe_contractions text p = some e) :
    p < e ∧ e ≤ text.length := by
  unfold try_match_apostrophe_contractions at h
  by_cases h0 : text[p]? ≠ some squote
  · rw [if_pos h0] at h; cases h
  · rw [if_neg h0] at h
    rcases h1 : text[p + 1]? with _ | c1
    · rw [h1] at h
      rcases h2 : text[p + 2]? with _ | c2 <;> rw [h2] at h <;> simp at h
    · rw [h1] at h
      rcases h2 : text[p + 2]? with _ | c2 <;> rw [h2] at h
      · simp only [] at h
        split at h
        · rw [Option.some_inj] at h
          have := getElem?_some_lt h1
          omega
        · cases h
      · simp only [] at h
        split at h
        · rw [Option.some_inj] at h
          have := getElem?_some_lt h2
          omega
        · split at h
          · rw [Option.some_inj] at h
            have := getElem?_some_lt h1
            omega
          · cases h

theorem try2_bound {text : List Char} {p e : Nat}
    (h : try_match_optional_nonalpha_plus_letters text p = some e) :
    p < e ∧ e ≤ text.length := by
  rcases h0 : text[p]? with _ | c <;>
    simp only [try_match_optional_nonalpha_plus_letters, h0] at h
  · split at h
    · rw [Option.some_inj] at h
      have hs : 0 < scan_while is_letter (text.drop p) := by omega
      obtain ⟨d, hd, _⟩ := (scan_pos_iff_at _ text p).mp hs
      have := getElem?_some_lt hd
      have := scan_end_le is_letter text p (by omega)
      omega
    · cases h
  · generalize hq : (if optional_lead c then p + 1 else p) = pos at h
    have hple : p ≤ pos := by rw [← hq]; split <;> omega
    split at h
    · rw [Option.some_inj] at h
      have hs : 0 < scan_while is_letter (text.drop pos) := by omega
      obtain ⟨d, hd, _⟩ := (scan_pos_iff_at _ text pos).mp hs
      have := getElem?_some_lt hd
      have := scan_end_le is_letter text pos (by omega)
      omega
    · cases h

theorem try3_bound {text : List Char} {p e : Nat}
    (h : try_match_numbers_1_to_3 text p = some e) :
    p < e ∧ e ≤ text.length := by
  simp only [try_match_numbers_1_to_3, scan_upto_eq_min] at h
  split at h
  · rw [Option.some_inj] at h
    have hs : 0 < scan_while is_number (text.drop p) := by omega
    obtain ⟨d, hd, _⟩ := (scan_pos_iff_at _ text p).mp hs
    have := getElem?_some_lt hd
    have := scan_end_le is_number text p (by omega)
    omega
  · cases h

theorem try4_bound {text : List Char} {p e : Nat}
    (h : try_match_space_plus_nonwhitespace_with_newlines text p = some e) :
    p < e ∧ e ≤ text.length := by
  unfold try_match_space_plus_nonwhitespace_with_newlines at h
  by_cases hl : text.length ≤ p
  · rw [if_pos hl] at h; cases h
  · rw [if_neg hl] at h
    rcases h0 : text[p]? with _ | c <;> simp only [h0] at h
    · split at h
      · rw [Option.some_inj] at h
        have h1 := scan_end_le other_char text p (by omega)
        have h2 := scan_end_le is_newline text
          (p + scan_while other_char (text.drop p)) h1
        omega
      · cases h
    · generalize hq : (if c == ' ' then p + 1 else p) = pos at h
      have hple : p ≤ pos ∧ pos ≤ p + 1 := by rw [← hq]; split <;> omega
      split at h
      · rw [Option.some_inj] at h
        have h1 := scan_end_le other_char text pos (by omega)
        have h2 := scan_end_le is_newline text
          (pos + scan_while other_char (text.drop pos)) h1
        omega
      · cases h

theorem try5_bound {text : List Char} {p e : Nat}
    (h : try_match_whitespace_before_newlines text p = some e) :
    p < e ∧ e ≤ text.length := by
  simp only [try_match_whitespace_before_newlines] at h
  split at h
  · rw [Option.some_inj] at h
    have hs : 0 < scan_while is_newline
        (text.drop (p + scan_while ws_not_newline (text.drop p))) := by omega
    obtain ⟨d, hd, _⟩ := (scan_pos_iff_at _ text _).mp hs
    have hlt := getElem?_some_lt hd
    have := scan_end_le is_newline text
      (p + scan_while ws_not_newline (text.drop p)) (by omega)
    omega
  · cases h

theorem try6_bound {text : List Char} {p e : Nat}
    (h : try_match_whitespace_followed_by_whitespace_or_end text p = some e) :
    p < e ∧ e ≤ text.length := by
  unfold try_match_whitespace_followed_by_whitespace_or_end at h
  by_cases hl : text.length ≤ p
  · rw [if_pos hl] at h; cases h
  · rw [if_neg hl] at h
    rcases h0 : text[p]? with _ | c <;> simp only [h0] at h
    · cases h
    · split at h
      · cases h
      · rw [find_rev_range_eq_some] at h
        obtain ⟨h1, h2, _, _⟩ := h
        have := scan_end_le ws_not_newline text p (by omega)
        omega

theorem try7_bound {text : List Char} {p e : Nat}
    (h : try_match_any_whitespace text p = some e) :
    p < e ∧ e ≤ text.length := by
  simp only [try_match_any_whitespace] at h
  split at h
  · rw [Option.some_inj] at h
    have hs : 0 < scan_while is_whitespace (text.drop p) := by omega
    obtain ⟨d, hd, _⟩ := (scan_pos_iff_at _ text p).mp hs
    have := getElem?_some_lt hd
    have := scan_end_le is_whitespace text p (by omega)
    omega
  · cases h

/-! `next_token`: exhaustion, progress, bounds. -/

theorem orElse7_some {o1 o2 o3 o4 o5 o6 o7 : Option Nat} {e : Nat}
    (h : (o1 <|> o2 <|> o3 <|> o4 <|> o5 <|> o6 <|> o7) = some e) :
    o1 = some e ∨ o2 = some e ∨ o3 = some e ∨ o4 = some e ∨ o5 = some e ∨
      o6 = some e ∨ o7 = some e := by
  rcases o1 with _ | v1
  · rcases o2 with _ | v2
    · rcases o3 with _ | v3
      · rcases o4 with _ | v4
        · rcases o5 with _ | v5
          · rcases o6 with _ | v6
            · simp_all
            · simp_all
          · simp_all
        · simp_all
      · simp_all
    · simp_all
  · simp_all

theorem next_token_none_iff (text : List Char) (p : Nat) :
    next_token text p = none ↔ text.length ≤ p := by
  unfold next_token
  by_cases hl : text.length ≤ p
  · rw [if_pos hl]; simpa using hl
  · rw [if_neg hl]
    simp only []
    constructor
    · intro h
      split at h <;> cases h
    · intro h; omega

theorem next_token_some (text : List Char) (p : Nat) (h : p < text.length) :
    ∃ e, next_token text p = some (p, e) ∧ p < e ∧ e ≤ text.length := by
  unfold next_token
  rw [if_neg (by omega)]
  simp only []
  split
  case h_1 e heq =>
    refine ⟨e, rfl, ?_⟩
    rcases orElse7_some heq with h1 | h2 | h3 | h4 | h5 | h6 | h7
    · exact try1_bound h1
    · exact try2_bound h2
    · exact try3_bound h3
    · exact try4_bound h4
    · exact try5_bound h5
    · exact try6_bound h6
    · exact try7_bound h7
  case h_2 heq =>
    exact ⟨p + 1, rfl, by omega, by omega⟩

/-! The token stream partitions the input. -/

theorem collect_tokens_zero (text : List Char) (pos : Nat) :
    collect_tokens text pos 0 = [] := rfl

theorem collect_tokens_succ (text : List Char) (pos fuel : Nat) :
    collect_tokens text pos (fuel + 1) =
      match next_token text pos with
      | some se => se :: collect_tokens text se.2 fuel
      | none => [] := rfl

theorem span_chain_nil (a b : Nat) : span_chain a [] b ↔ a = b := Iff.rfl

theorem span_chain_cons (a b s e : Nat) (rest : List (Nat × Nat)) :
    span_chain a ((s, e) :: rest) b ↔
      s = a ∧ a < e ∧ span_chain e rest b := Iff.rfl

theorem span_chain_le {a b : Nat} {ts : List (Nat × Nat)}
    (h : span_chain a ts b) : a ≤ b := by
  induction ts generalizing a with
  | nil => rw [span_chain_nil] at h; omega
  | cons se rest ih =>
    obtain ⟨s, e⟩ := se
    obtain ⟨h1, h2, h3⟩ := h
    have := ih h3
    omega

theorem span_chain_mem {a b : Nat} {ts : List (Nat × Nat)}
    (h : span_chain a ts b) : ∀ se ∈ ts, a ≤ se.1 ∧ se.1 < se.2 ∧ se.2 ≤ b := by
  induction ts generalizing a with
  | nil => intro se hse; cases hse
  | cons hd rest ih =>
    obtain ⟨s, e⟩ := hd
    obtain ⟨h1, h2, h3⟩ := h
    intro se hse
    rcases List.mem_cons.mp hse with h' | h'
    · subst h'
      have := span_chain_le h3
      omega
    · have := ih h3 se h'
      omega

theorem span_chain_flatten (text : List Char) {ts : List (Nat × Nat)}
    {a b : Nat} (h : span_chain a ts b) :
    (ts.map (fun se => span_slice text se.1 se.2)).flatten =
      (text.drop a).take (b - a) := by
  induction ts generalizing a with
  | nil =>
    rw [span_chain_nil] at h
    subst h
    simp
  | cons se rest ih =>
    obtain ⟨s, e⟩ := se
    obtain ⟨h1, h2, h3⟩ := h
    subst h1
    have heb : e ≤ b := span_chain_le h3
    rw [List.map_cons, List.flatten_cons, ih h3]
    simp only [span_slice]
    rw [show text.drop e = (text.drop s).drop (e - s) by
      rw [List.drop_drop]; congr 1; omega]
    rw [← List.take_add]
    congr 1
    omega

theorem collect_tokens_chain (text : List Char) :
    ∀ fuel pos, pos ≤ text.length → text.length - pos ≤ fuel →
      span_chain pos (collect_tokens text pos fuel) text.length := by
  intro fuel
  induction fuel with
  | zero =>
    intro pos h1 h2
    rw [collect_tokens_zero, span_chain_nil]
    omega
  | succ fuel ih =>
    intro pos h1 h2
    by_cases hlt : pos < text.length
    · obtain ⟨e, he, hpe, hel⟩ := next_token_some text pos hlt
      rw [collect_tokens_succ, he]
      exact ⟨rfl, hpe, ih e hel (by omega)⟩
    · have hnone : next_token text pos = none :=
        (next_token_none_iff text pos).mpr (by omega)
      rw [collect_tokens_succ, hnone, span_chain_nil]
      omega

theorem find_matches_chain (text : List Char) :
    span_chain 0 (find_matches text) text.length :=
  collect_tokens_chain text text.length 0 (by omega) (by omega)

theorem collect_tokens_length_le (text : List Char) :
    ∀ fuel pos, (collect_tokens text pos fuel).length ≤ fuel := by
  intro fuel
  induction fuel with
  | zero => intro pos; rw [collect_tokens_zero]; simp
  | succ fuel ih =>
    intro pos
    rw [collect_tokens_succ]
    rcases h : next_token text pos with _ | se
    · simp
    · simpa using ih se.2

/-- C2: for every input text, the spans yielded by iterating the scanner are
each non-empty (end > start), consecutive spans are contiguous (each start
equals the previous end, no gaps, no overlaps), their union is exactly
`[0, length)` (`span_chain 0 _ length`), and the concatenation, in order, of
the corresponding substrings reproduces the text exactly. -/
theorem C2_token_partition (text : List Char) :
    ((find_matches text).map
        (fun se => span_slice text se.1 se.2)).flatten = text ∧
    (∀ se ∈ find_matches text, se.1 < se.2) ∧
    span_chain 0 (find_matches text) text.length := by
  have hc := find_matches_chain text
  refine ⟨?_, ?_, hc⟩
  · rw [span_chain_flatten text hc]
    simp
  · intro se hse
    exact (span_chain_mem hc se hse).2.1

theorem C2_token_partition_witness :
    ((find_matches [ 'a', ' ', ' ', 'b' ]).map
        (fun se => span_slice [ 'a', ' ', ' ', 'b' ] se.1 se.2)).flatten =
      [ 'a', ' ', ' ', 'b' ] ∧
    (∀ se ∈ find_matches [ 'a', ' ', ' ', 'b' ], se.1 < se.2) :=
  ⟨(C2_token_partition [ 'a', ' ', ' ', 'b' ]).1,
   (C2_token_partition [ 'a', ' ', ' ', 'b' ]).2.1⟩

/-- C9: iteration of any finite input of length n terminates after at most n
token-yielding calls of `next`: at any in-bounds cursor position, `next`
yields a token that starts at the cursor and strictly advances it by at least
one codepoint (never past the end), `next` signals end-of-sequence exactly
when the cursor has reached the input length, and at most n tokens are
produced in total. -/
theorem C9_termination_progress (text : List Char) (pos : Nat) :
    (pos < text.length → ∃ e, next_token text pos = some (pos, e) ∧
      pos < e ∧ e ≤ text.length) ∧
    (next_token text pos = none ↔ text.length ≤ pos) ∧
    (find_matches text).length ≤ text.length :=
  ⟨fun h => next_token_some text pos h, next_token_none_iff text pos,
    collect_tokens_length_le text text.length 0⟩

theorem C9_termination_progress_witness :
    (0 < List.length [ 'a', 'b' ]) ∧
    (∃ e, next_token [ 'a', 'b' ] 0 = some (0, e) ∧ 0 < e ∧
      e ≤ List.length [ 'a', 'b' ]) :=
  ⟨by decide, (C9_termination_progress [ 'a', 'b' ] 0).1 (by decide)⟩

/-- C1: the scanner does not reproduce the reference pattern on every input:
on "\n \n" (LF, space, LF) the scanner's rule 5 — which scans only
non-newline whitespace before requiring newlines — emits "\n" and then " \n",
while the reference alternative `\s*[\r\n]`, whose greedy `\s*` also spans
newlines, matches the whole three-character run as a single token.  (The
repository's own differential property test asserts equality with the
reference pattern, but its generator `\PC*` never produces newlines, so this
input is outside its reach.) -/
theorem C1_oracle_divergence :
    find_matches [ '\n', ' ', '\n' ] = [(0, 1), (1, 3)] ∧
    ref_tokens [ '\n', ' ', '\n' ] = [(0, 3)] ∧
    find_matches [ '\n', ' ', '\n' ] ≠ ref_tokens [ '\n', ' ', '\n' ] :=
  ⟨by decide, by decide, by decide⟩

/-- C8: the classifier predicates are total functions of the codepoint (they
are plain total functions in this embedding, defined for every `Char`
including unassigned and private-use codepoints): `is_newline` is true
exactly for U+000A and U+000D, and `is_letter` / `is_number` hold exactly on
the Unicode General Category group L / group N interval tables (modelled from
the spec — the oniguruma `\p{L}`/`\p{N}` tables the source delegates to are
not part of this repository). -/
theorem C8_classifier_exactness :
    (∀ c : Char, is_newline c = true ↔ (c = '\r' ∨ c = '\n')) ∧
    (∀ c : Char, is_letter c = inRanges categoryLTable c.toNat) ∧
    (∀ c : Char, is_number c = inRanges categoryNTable c.toNat) := by
  refine ⟨fun c => ?_, fun c => rfl, fun c => rfl⟩
  simp [is_newline]

theorem C8_classifier_exactness_witness :
    is_newline '\n' = true ∧ is_newline 'x' ≠ true ∧ is_letter 'Ω' = true ∧
      is_number '½' = true ∧ is_letter '½' = false :=
  ⟨(C8_classifier_exactness.1 '\n').mpr (Or.inr rfl),
   fun h => by cases (C8_classifier_exactness.1 'x').mp h <;> simp_all,
   by rw [C8_classifier_exactness.2.1 'Ω']; decide,
   by rw [C8_classifier_exactness.2.2 '½']; decide,
   by rw [C8_classifier_exactness.2.1 '½']; decide⟩

/-! Rule 1 case analysis helpers. -/

theorem try1_none_of_not_squote {text : List Char} {p : Nat}
    (h : text[p]? ≠ some squote) :
    try_match_apostrophe_contractions text p = none := by
  unfold try_match_apostrophe_contractions
  rw [if_pos h]

theorem try1_none_of_no_next {text : List Char} {p : Nat}
    (hsq : text[p]? = some squote) (h1 : text[p + 1]? = none) :
    try_match_apostrophe_contractions text p = none := by
  unfold try_match_apostrophe_contractions
  rw [if_neg (not_not_intro hsq), h1]

theorem try1_double_eq {text : List Char} {p : Nat} {c1 c2 : Char}
    (hsq : text[p]? = some squote) (h1 : text[p + 1]? = some c1)
    (h2 : text[p + 2]? = some c2) (hd : is_double_suffix c1 c2 = true) :
    try_match_apostrophe_contractions text p = some (p + 3) := by
  unfold try_match_apostrophe_contractions
  rw [if_neg (not_not_intro hsq), h1, h2]
  simp [hd]

theorem try1_single_eq {text : List Char} {p : Nat} {c1 : Char}
    (hsq : text[p]? = some squote) (h1 : text[p + 1]? = some c1)
    (hs : is_single_suffix c1 = true)
    (hnd : ∀ c2, text[p + 2]? = some c2 → is_double_suffix c1 c2 = false) :
    try_match_apostrophe_contractions text p = some (p + 2) := by
  unfold try_match_apostrophe_contractions
  rw [if_neg (not_not_intro hsq), h1]
  rcases h2 : text[p + 2]? with _ | c2
  · simp [hs]
  · simp [hnd c2 h2, hs]

theorem try1_none_of_no_suffix {text : List Char} {p : Nat} {c1 : Char}
    (hsq : text[p]? = some squote) (h1 : text[p + 1]? = some c1)
    (hs : is_single_suffix c1 = false)
    (hnd : ∀ c2, text[p + 2]? = some c2 → is_double_suffix c1 c2 = false) :
    try_match_apostrophe_contractions text p = none := by
  unfold try_match_apostrophe_contractions
  rw [if_neg (not_not_intro hsq), h1]
  rcases h2 : text[p + 2]? with _ | c2
  · simp [hs]
  · simp [hnd c2 h2, hs]

/-- C5: rule 1 — at an apostrophe, if the two following characters
ASCII-case-insensitively spell ll, ve or re the rule consumes apostrophe plus
both (end `p + 3`); otherwise, if the single following character
ASCII-case-insensitively is s, d, m or t it consumes apostrophe plus that
character (end `p + 2`); in every other case — no apostrophe at the cursor,
nothing after the apostrophe, or no valid suffix — it declines, leaving the
apostrophe unconsumed. -/
theorem C5_apostrophe_contractions (text : List Char) (p : Nat) :
    (text[p]? ≠ some squote →
      try_match_apostrophe_contractions text p = none) ∧
    (∀ c1 c2, text[p]? = some squote → text[p + 1]? = some c1 →
      text[p + 2]? = some c2 → is_double_suffix c1 c2 = true →
      try_match_apostrophe_contractions text p = some (p + 3)) ∧
    (∀ c1, text[p]? = some squote → text[p + 1]? = some c1 →
      is_single_suffix c1 = true →
      (∀ c2, text[p + 2]? = some c2 → is_double_suffix c1 c2 = false) →
      try_match_apostrophe_contractions text p = some (p + 2)) ∧
    (text[p]? = some squote → text[p + 1]? = none →
      try_match_apostrophe_contractions text p = none) ∧
    (∀ c1, text[p]? = some squote → text[p + 1]? = some c1 →
      is_single_suffix c1 = false →
      (∀ c2, text[p + 2]? = some c2 → is_double_suffix c1 c2 = false) →
      try_match_apostrophe_contractions text p = none) :=
  ⟨fun h => try1_none_of_not_squote h,
   fun _ _ hsq h1 h2 hd => try1_double_eq hsq h1 h2 hd,
   fun _ hsq h1 hs hnd => try1_single_eq hsq h1 hs hnd,
   fun hsq h1 => try1_none_of_no_next hsq h1,
   fun _ hsq h1 hs hnd => try1_none_of_no_suffix hsq h1 hs hnd⟩

theorem C5_apostrophe_contractions_witness :
    try_match_apostrophe_contractions [ squote, 'L', 'l', 'x' ] 0 =
      some 3 :=
  (C5_apostrophe_contractions [ squote, 'L', 'l', 'x' ] 0).2.1 'L' 'l'
    (by decide) (by decide) (by decide) (by decide)

/-- C7: rule 3 — consumes between one and three consecutive number
characters (never a fourth, even when more digits follow), and declines
exactly when the character at the cursor is absent or not a number; longer
digit runs are therefore split into groups of at most three, as in
"123456" → "123", "456". -/
theorem C7_digit_run (text : List Char) (p : Nat) :
    (∀ e, try_match_numbers_1_to_3 text p = some e →
      ∃ n, 1 ≤ n ∧ n ≤ 3 ∧ e = p + n ∧
        (∀ i, i < n → ∃ c, text[p + i]? = some c ∧ is_number c = true) ∧
        (n < 3 → ∀ c, text[p + n]? = some c → is_number c = false)) ∧
    (try_match_numbers_1_to_3 text p = none ↔
      ∀ c, text[p]? = some c → is_number c = false) ∧
    find_matches [ '1', '2', '3', '4', '5', '6' ] = [(0, 3), (3, 6)] := by
  refine ⟨?_, ⟨?_, ?_⟩, by decide⟩
  · intro e he
    simp only [try_match_numbers_1_to_3, scan_upto_eq_min] at he
    split at he
    · rw [Option.some_inj] at he
      refine ⟨min 3 (scan_while is_number (text.drop p)), by omega, by omega,
        he.symm, ?_, ?_⟩
      · intro i hi
        exact scan_sat_at is_number text p (p + i) (by omega) (by omega)
      · intro hlt c hc
        rw [show min 3 (scan_while is_number (text.drop p)) =
          scan_while is_number (text.drop p) by omega] at hc
        exact scan_stop_at is_number text p c hc
    · cases he
  · intro hn c hc
    by_cases hnum : is_number c = true
    · exfalso
      simp only [try_match_numbers_1_to_3, scan_upto_eq_min] at hn
      have hpos : 0 < scan_while is_number (text.drop p) :=
        (scan_pos_iff_at _ text p).mpr ⟨c, hc, hnum⟩
      split at hn
      · cases hn
      · omega
    · simpa using hnum
  · intro hall
    simp only [try_match_numbers_1_to_3, scan_upto_eq_min]
    have h0 : scan_while is_number (text.drop p) = 0 := by
      by_contra hne
      obtain ⟨c, hc, hnum⟩ :=
        (scan_pos_iff_at is_number text p).mp (by omega)
      rw [hall c hc] at hnum
      cases hnum
    rw [h0]
    simp

theorem C7_digit_run_witness :
    ∃ n, 1 ≤ n ∧ n ≤ 3 ∧ 3 = 0 + n ∧
      (∀ i, i < n → ∃ c, ([ '1', '2', '3', '4' ] : List Char)[0 + i]? =
        some c ∧ is_number c = true) ∧
      (n < 3 → ∀ c, ([ '1', '2', '3', '4' ] : List Char)[0 + n]? = some c →
        is_number c = false) :=
  (C7_digit_run [ '1', '2', '3', '4' ] 0).1 3 (by decide)

/-- C4: rule 5 — consumes zero or more non-newline whitespace characters
followed by one or more newlines, taking the newline run greedily; when a
match is returned there is a split point m with only non-newline whitespace
on [p, m), only newlines on [m, e), and no further newline at e; if no
newline follows the scanned non-newline whitespace run the rule declines
outright (full rollback — `none`, cursor untouched); and "foo\n\n" tokenizes
as "foo", "\n\n". -/
theorem C4_ws_before_newlines (text : List Char) (p : Nat) :
    (∀ e, try_match_whitespace_before_newlines text p = some e →
      ∃ m, p ≤ m ∧ m < e ∧ e ≤ text.length ∧
        (∀ i, p ≤ i → i < m → ∃ c, text[i]? = some c ∧
          ws_not_newline c = true) ∧
        (∀ i, m ≤ i → i < e → ∃ c, text[i]? = some c ∧
          is_newline c = true) ∧
        (∀ c, text[e]? = some c → is_newline c = false)) ∧
    ((∀ c, text[p + ws_run text p]? = some c → is_newline c = false) →
      try_match_whitespace_before_newlines text p = none) ∧
    (∀ c, text[p + ws_run text p]? = some c → is_newline c = true →
      ∃ e, try_match_whitespace_before_newlines text p = some e) ∧
    find_matches [ 'f', 'o', 'o', '\n', '\n' ] = [(0, 3), (3, 5)] := by
  refine ⟨?_, ?_, ?_, by decide⟩
  · intro e he
    have hb := try5_bound he
    simp only [try_match_whitespace_before_newlines] at he
    split at he
    · rw [Option.some_inj] at he
      refine ⟨p + scan_while ws_not_newline (text.drop p), by omega, by omega,
        hb.2, ?_, ?_, ?_⟩
      · intro i h1 h2
        exact scan_sat_at ws_not_newline text p i h1 h2
      · intro i h1 h2
        exact scan_sat_at is_newline text
          (p + scan_while ws_not_newline (text.drop p)) i h1 (by omega)
      · intro c hc
        apply scan_stop_at is_newline text
          (p + scan_while ws_not_newline (text.drop p)) c
        rw [← he] at hc
        exact hc
    · cases he
  · intro hnl
    simp only [try_match_whitespace_before_newlines]
    have h0 : scan_while is_newline
        (text.drop (p + scan_while ws_not_newline (text.drop p))) = 0 := by
      by_contra hne
      obtain ⟨c, hc, hnum⟩ := (scan_pos_iff_at is_newline text
        (p + scan_while ws_not_newline (text.drop p))).mp (by omega)
      rw [hnl c hc] at hnum
      cases hnum
    rw [h0]
    simp
  · intro c hc hnl2
    refine ⟨p + ws_run text p +
      scan_while is_newline (text.drop (p + ws_run text p)), ?_⟩
    have hpos : 0 < scan_while is_newline (text.drop (p + ws_run text p)) :=
      (scan_pos_iff_at is_newline text (p + ws_run text p)).mpr
        ⟨c, hc, hnl2⟩
    simp only [try_match_whitespace_before_newlines, ws_run] at hpos ⊢
    rw [if_pos (by omega)]

theorem C4_ws_before_newlines_witness :
    ∃ m, 0 ≤ m ∧ m < 2 ∧ 2 ≤ List.length [ ' ', '\n' ] ∧
      (∀ i, 0 ≤ i → i < m → ∃ c, ([ ' ', '\n' ] : List Char)[i]? = some c ∧
        ws_not_newline c = true) ∧
      (∀ i, m ≤ i → i < 2 → ∃ c, ([ ' ', '\n' ] : List Char)[i]? = some c ∧
        is_newline c = true) ∧
      (∀ c, ([ ' ', '\n' ] : List Char)[2]? = some c →
        is_newline c = false) :=
  (C4_ws_before_newlines [ ' ', '\n' ] 0).1 2 (by decide)

/-! Rule 6 helpers. -/

theorem try6_eq_find (text : List Char) (p : Nat) {c : Char}
    (hc : text[p]? = some c) (hw : is_whitespace c = true)
    (hn : is_newline c = false) :
    try_match_whitespace_followed_by_whitespace_or_end text p =
      (List.range' (p + 1) (ws_run text p)).reverse.find?
        (boundary_ok text) := by
  unfold try_match_whitespace_followed_by_whitespace_or_end
  have hlen := getElem?_some_lt hc
  rw [if_neg (by omega), hc]
  simp [hw, hn, ws_run]

theorem ws_run_pos {text : List Char} {p : Nat} {c : Char}
    (hc : text[p]? = some c) (hw : is_whitespace c = true)
    (hn : is_newline c = false) : 0 < ws_run text p :=
  (scan_pos_iff_at ws_not_newline text p).mpr
    ⟨c, hc, by simp [ws_not_newline, hw, hn]⟩

theorem ws_run_boundary {text : List Char} {p i : Nat}
    (h1 : p ≤ i) (h2 : i < p + ws_run text p) :
    boundary_ok text i = true := by
  obtain ⟨c, hc, hwc⟩ := scan_sat_at ws_not_newline text p i h1 h2
  unfold boundary_ok
  rw [hc]
  simp only [ws_not_newline, Bool.and_eq_true] at hwc
  exact hwc.1

/-- C3: rule 6 — requires a non-newline whitespace character at the cursor
(declining otherwise); over the maximal non-newline whitespace run of length
r it returns exactly the largest k in [1, r] whose boundary character (the
one just past position p + k) is absent or whitespace, declining when no k
qualifies; for r ≥ 2 a match always exists, and for r = 1 the rule matches
iff the single whitespace character is followed by whitespace or the end of
text. -/
theorem C3_rule6_lookahead (text : List Char) (p : Nat) :
    (∀ c, text[p]? = some c → is_whitespace c = true → is_newline c = false →
      ((∃ k, 1 ≤ k ∧ k ≤ ws_run text p ∧ boundary_ok text (p + k) = true ∧
          (∀ j, k < j → j ≤ ws_run text p →
            boundary_ok text (p + j) = false) ∧
          try_match_whitespace_followed_by_whitespace_or_end text p =
            some (p + k)) ∨
        ((∀ k, 1 ≤ k → k ≤ ws_run text p →
            boundary_ok text (p + k) = false) ∧
          try_match_whitespace_followed_by_whitespace_or_end text p =
            none)) ∧
      (2 ≤ ws_run text p → ∃ k, 1 ≤ k ∧ k ≤ ws_run text p ∧
        try_match_whitespace_followed_by_whitespace_or_end text p =
          some (p + k)) ∧
      (ws_run text p = 1 →
        (try_match_whitespace_followed_by_whitespace_or_end text p =
            some (p + 1) ↔ boundary_ok text (p + 1) = true))) ∧
    (∀ c, text[p]? = some c →
      (is_whitespace c = false ∨ is_newline c = true) →
      try_match_whitespace_followed_by_whitespace_or_end text p = none) := by
  constructor
  · intro c hc hw hn
    have heq := try6_eq_find text p hc hw hn
    have hr := ws_run_pos hc hw hn
    have hmain :
        (∃ k, 1 ≤ k ∧ k ≤ ws_run text p ∧
          boundary_ok text (p + k) = true ∧
          (∀ j, k < j → j ≤ ws_run text p →
            boundary_ok text (p + j) = false) ∧
          try_match_whitespace_followed_by_whitespace_or_end text p =
            some (p + k)) ∨
        ((∀ k, 1 ≤ k → k ≤ ws_run text p →
            boundary_ok text (p + k) = false) ∧
          try_match_whitespace_followed_by_whitespace_or_end text p =
            none) := by
      rcases hfind : (List.range' (p + 1) (ws_run text p)).reverse.find?
          (boundary_ok text) with _ | x
      · have hall := (find_rev_range_eq_none (boundary_ok text) (p + 1)
          (ws_run text p)).mp hfind
        right
        exact ⟨fun k hk1 hk2 => hall (p + k) (by omega) (by omega),
          by rw [heq, hfind]⟩
      · have hx := (find_rev_range_eq_some (boundary_ok text) (p + 1)
          (ws_run text p) x).mp hfind
        left
        refine ⟨x - p, by omega, by omega, ?_, ?_, ?_⟩
        · rw [show p + (x - p) = x by omega]
          exact hx.2.2.1
        · intro j hj1 hj2
          exact hx.2.2.2 (p + j) (by omega) (by omega)
        · rw [heq, hfind]
          congr 1
          omega
    refine ⟨hmain, ?_, ?_⟩
    · intro hr2
      rcases hmain with ⟨k, hk1, hk2, _, _, hk5⟩ | ⟨hall, _⟩
      · exact ⟨k, hk1, hk2, hk5⟩
      · exfalso
        have hb := @ws_run_boundary text p (p + (ws_run text p - 1))
          (by omega) (by omega)
        have hfalse := hall (ws_run text p - 1) (by omega) (by omega)
        rw [hfalse] at hb
        cases hb
    · intro hr1
      constructor
      · intro hsome
        rcases hmain with ⟨k, hk1, hk2, hk3, _, _⟩ | ⟨_, hnone⟩
        · have hk : k = 1 := by omega
          subst hk
          exact hk3
        · rw [hnone] at hsome
          cases hsome
      · intro hb
        rcases hmain with ⟨k, hk1, hk2, _, _, hk5⟩ | ⟨hall, _⟩
        · have hk : k = 1 := by omega
          subst hk
          exact hk5
        · exfalso
          have hfalse := hall 1 (by omega) (by omega)
          rw [hfalse] at hb
          cases hb
  · intro c hc hbad
    unfold try_match_whitespace_followed_by_whitespace_or_end
    have hlen := getElem?_some_lt hc
    rw [if_neg (by omega), hc]
    rcases hbad with hb | hb
    · simp [hb]
    · simp [hb]

theorem C3_rule6_lookahead_witness :
    ∃ k, 1 ≤ k ∧ k ≤ ws_run [ ' ', ' ', 'x' ] 0 ∧
      try_match_whitespace_followed_by_whitespace_or_end
        [ ' ', ' ', 'x' ] 0 = some (0 + k) :=
  ((C3_rule6_lookahead [ ' ', ' ', 'x' ] 0).1 ' ' (by decide) (by decide)
    (by decide)).2.1 (by decide)

/-! Rule 2 shape helpers. -/

theorem scan_zero_of_none (q : Char → Bool) (text : List Char) (pos : Nat)
    (h : ∀ c, text[pos]? = some c → q c = false) :
    scan_while q (text.drop pos) = 0 := by
  by_contra hne
  obtain ⟨c, hc, hqc⟩ := (scan_pos_iff_at q text pos).mp (by omega)
  rw [h c hc] at hqc
  cases hqc

theorem try2_eq_lead (text : List Char) (p : Nat) {c : Char}
    (h0 : text[p]? = some c) (hlead : optional_lead c = true) :
    try_match_optional_nonalpha_plus_letters text p =
      (if p + 1 < p + 1 + scan_while is_letter (text.drop (p + 1)) then
        some (p + 1 + scan_while is_letter (text.drop (p + 1)))
      else none) := by
  unfold try_match_optional_nonalpha_plus_letters
  rw [h0]
  simp [hlead]

theorem try2_eq_nolead (text : List Char) (p : Nat) {c : Char}
    (h0 : text[p]? = some c) (hlead : optional_lead c = false) :
    try_match_optional_nonalpha_plus_letters text p =
      (if p < p + scan_while is_letter (text.drop p) then
        some (p + scan_while is_letter (text.drop p))
      else none) := by
  unfold try_match_optional_nonalpha_plus_letters
  rw [h0]
  simp [hlead]

theorem try2_eq_nochar (text : List Char) (p : Nat)
    (h0 : text[p]? = none) :
    try_match_optional_nonalpha_plus_letters text p =
      (if p < p + scan_while is_letter (text.drop p) then
        some (p + scan_while is_letter (text.drop p))
      else none) := by
  unfold try_match_optional_nonalpha_plus_letters
  rw [h0]

/-- C6: rule 2 — optionally admits one leading character that is neither
letter nor number nor newline, then requires letters: a match either starts
at a letter and covers the maximal letter run, or covers the admitted lead
character plus the maximal nonempty letter run after it; if no letter follows
the (possibly admitted) lead position the rule declines with no state change
(the tentative lead is not committed); "a  b" tokenizes as "a", " ", " b"
with the second space absorbed as the lead of " b". -/
theorem C6_optional_lead_letters (text : List Char) (p : Nat) :
    (∀ e, try_match_optional_nonalpha_plus_letters text p = some e →
      ∃ c, text[p]? = some c ∧
        ((is_letter c = true ∧ p < e ∧
            (∀ i, p ≤ i → i < e → ∃ d, text[i]? = some d ∧
              is_letter d = true) ∧
            (∀ d, text[e]? = some d → is_letter d = false)) ∨
         (optional_lead c = true ∧ p + 1 < e ∧
            (∀ i, p + 1 ≤ i → i < e → ∃ d, text[i]? = some d ∧
              is_letter d = true) ∧
            (∀ d, text[e]? = some d → is_letter d = false)))) ∧
    (text[p]? = none →
      try_match_optional_nonalpha_plus_letters text p = none) ∧
    (∀ c, text[p]? = some c → optional_lead c = false →
      is_letter c = false →
      try_match_optional_nonalpha_plus_letters text p = none) ∧
    (∀ c, text[p]? = some c → optional_lead c = true →
      (∀ d, text[p + 1]? = some d → is_letter d = false) →
      try_match_optional_nonalpha_plus_letters text p = none) ∧
    (∀ c, text[p]? = some c → is_letter c = true →
      ∃ e, try_match_optional_nonalpha_plus_letters text p = some e) ∧
    (∀ c d, text[p]? = some c → optional_lead c = true →
      text[p + 1]? = some d → is_letter d = true →
      ∃ e, try_match_optional_nonalpha_plus_letters text p = some e) ∧
    find_matches [ 'a', ' ', ' ', 'b' ] = [(0, 1), (1, 2), (2, 4)] := by
  refine ⟨?_, ?_, ?_, ?_, ?_, ?_, by decide⟩
  · intro e he
    rcases h0 : text[p]? with _ | c
    · exfalso
      rw [try2_eq_nochar text p h0] at he
      split at he
      · have hs : 0 < scan_while is_letter (text.drop p) := by omega
        obtain ⟨d, hd, _⟩ := (scan_pos_iff_at is_letter text p).mp hs
        rw [h0] at hd
        cases hd
      · cases he
    · refine ⟨c, rfl, ?_⟩
      by_cases hlead : optional_lead c = true
      · right
        rw [try2_eq_lead text p h0 hlead] at he
        split at he
        · rw [Option.some_inj] at he
          refine ⟨hlead, by omega, ?_, ?_⟩
          · intro i hi1 hi2
            exact scan_sat_at is_letter text (p + 1) i hi1 (by omega)
          · intro d hd
            apply scan_stop_at is_letter text (p + 1) d
            rw [he]
            exact hd
        · cases he
      · left
        rw [Bool.not_eq_true] at hlead
        rw [try2_eq_nolead text p h0 hlead] at he
        split at he
        · rw [Option.some_inj] at he
          have hs : 0 < scan_while is_letter (text.drop p) := by omega
          obtain ⟨d, hd, hdl⟩ := scan_sat_at is_letter text p p (by omega)
            (by omega)
          rw [h0] at hd
          have hcd : c = d := by injection hd
          refine ⟨by rw [hcd]; exact hdl, by omega, ?_, ?_⟩
          · intro i hi1 hi2
            exact scan_sat_at is_letter text p i hi1 (by omega)
          · intro d2 hd2
            apply scan_stop_at is_letter text p d2
            rw [he]
            exact hd2
        · cases he
  · intro h0
    rw [try2_eq_nochar text p h0]
    rw [scan_zero_of_none is_letter text p (fun c hc => by
      rw [h0] at hc; cases hc)]
    simp
  · intro c h0 hlead hcl
    rw [try2_eq_nolead text p h0 hlead]
    rw [scan_zero_of_none is_letter text p (fun d hd => by
      rw [h0] at hd
      have : c = d := by injection hd
      rw [← this]
      exact hcl)]
    simp
  · intro c h0 hlead hnext
    rw [try2_eq_lead text p h0 hlead]
    rw [scan_zero_of_none is_letter text (p + 1) hnext]
    simp
  · intro c h0 hcl
    have hlead : optional_lead c = false := by
      simp [optional_lead, hcl]
    rw [try2_eq_nolead text p h0 hlead]
    have hpos : 0 < scan_while is_letter (text.drop p) :=
      (scan_pos_iff_at is_letter text p).mpr ⟨c, h0, hcl⟩
    rw [if_pos (by omega)]
    exact ⟨_, rfl⟩
  · intro c d h0 hlead hd hdl
    rw [try2_eq_lead text p h0 hlead]
    have hpos : 0 < scan_while is_letter (text.drop (p + 1)) :=
      (scan_pos_iff_at is_letter text (p + 1)).mpr ⟨d, hd, hdl⟩
    rw [if_pos (by omega)]
    exact ⟨_, rfl⟩

theorem C6_optional_lead_letters_witness :
    try_match_optional_nonalpha_plus_letters [ '\n', 'a' ] 0 = none :=
  (C6_optional_lead_letters [ '\n', 'a' ] 0).2.2.1 '\n' (by decide)
    (by decide) (by decide)

/-- C10: the contraction rule is local — its outcome depends only on the
characters at positions p, p+1 and p+2 (it never examines anything past the
matched suffix) — and whenever the cursor holds an apostrophe followed by a
valid suffix, `next` emits exactly the contraction span even when more
letters immediately follow, as in "'still" → "'s", "till". -/
theorem C10_contraction_locality (text text2 : List Char) (p : Nat) :
    ((∀ i, i < 3 → text[p + i]? = text2[p + i]?) →
      try_match_apostrophe_contractions text p =
        try_match_apostrophe_contractions text2 p) ∧
    (∀ c1, text[p]? = some squote → text[p + 1]? = some c1 →
      is_single_suffix c1 = true →
      (∀ c2, text[p + 2]? = some c2 → is_double_suffix c1 c2 = false) →
      next_token text p = some (p, p + 2)) ∧
    (∀ c1 c2, text[p]? = some squote → text[p + 1]? = some c1 →
      text[p + 2]? = some c2 → is_double_suffix c1 c2 = true →
      next_token text p = some (p, p + 3)) ∧
    find_matches [ squote, 's', 't', 'i', 'l', 'l' ] =
      [(0, 2), (2, 6)] := by
  refine ⟨?_, ?_, ?_, by decide⟩
  · intro hag
    have h0 := hag 0 (by omega)
    have h1 := hag 1 (by omega)
    have h2 := hag 2 (by omega)
    rw [Nat.add_zero] at h0
    unfold try_match_apostrophe_contractions
    rw [h0, h1, h2]
  · intro c1 hsq h1 hs hnd
    have hr := try1_single_eq hsq h1 hs hnd
    have hlen := getElem?_some_lt hsq
    unfold next_token
    rw [if_neg (by omega)]
    simp only [hr]
    rfl
  · intro c1 c2 hsq h1 h2 hd
    have hr := try1_double_eq hsq h1 h2 hd
    have hlen := getElem?_some_lt hsq
    unfold next_token
    rw [if_neg (by omega)]
    simp only [hr]
    rfl

theorem C10_contraction_locality_witness :
    next_token [ squote, 's', 't' ] 0 = some (0, 2) :=
  (C10_contraction_locality [ squote, 's', 't' ] [] 0).2.1 's' (by decide)
    (by decide) (by decide)
    (fun c2 h => by
      rw [show ([ squote, 's', 't' ] : List Char)[0 + 2]? = some 't' by
        decide] at h
      injection h with h
      subst h
      decide)
